import Mathlib

/-!
Shallow embedding of the media-backend service (`src/main.py`).

State that the Python code keeps on disk is modelled explicitly:
users and settings as association lists from string keys to records,
the patch and backup directories as association lists from file name to
file content kept in creation order (a fresh file is appended at the end,
an overwrite updates in place), and the target filesystem as an
association list from the relative target path to the file's bytes.
String-level operations (`split`, `replace`, `join`, `os.path.basename`,
lexicographic comparison used by `sorted(reverse=True)`) are modelled
character-by-character, following Python's semantics.
-/

namespace MediaBackend

/-! ## Python string primitives -/

/-- Python `s.split("_", 2)`, restricted to the first split point:
split a character list at the first `'_'`, returning the part before and
the part after, or `none` when there is no underscore. -/
def breakUnd : List Char → Option (List Char × List Char)
  | [] => none
  | c :: cs =>
    if c = '_' then some ([], cs)
    else (breakUnd cs).map (fun p => (c :: p.1, p.2))

/-- Python `name.split("_", 2)[-1]`: the remainder after the second
underscore when there are at least two underscores, after the first when
there is exactly one, and the whole string when there is none. -/
def pySplit2Last (s : String) : String :=
  match breakUnd s.data with
  | none => s
  | some (_, r1) =>
    match breakUnd r1 with
    | none => ⟨r1⟩
    | some (_, r2) => ⟨r2⟩

/-- Python `s.replace("_", "/")`. -/
def undToSlash (s : String) : String :=
  ⟨s.data.map (fun c => if c = '_' then '/' else c)⟩

/-- Python `s.replace("/", "_")` (the patch-name sanitisation in the
agent endpoint). -/
def slashToUnd (s : String) : String :=
  ⟨s.data.map (fun c => if c = '/' then '_' else c)⟩

/-- Does `s` start with `pre`? -/
def startsWithL : List Char → List Char → Bool
  | _, [] => true
  | [], _ :: _ => false
  | a :: as, b :: bs => a = b && startsWithL as bs

/-- Split a character list at the first occurrence of the separator
`sep`, returning the part before it and the part after it, or `none`
when `sep` does not occur. -/
def breakOnSep (sep : List Char) : List Char → Option (List Char × List Char)
  | [] => none
  | c :: cs =>
    if startsWithL (c :: cs) sep then some ([], (c :: cs).drop sep.length)
    else (breakOnSep sep cs).map (fun p => (c :: p.1, p.2))

/-- Python `name.split(".bak_")[0]`: the portion before the first
occurrence of `".bak_"`, or the whole string when the marker is absent. -/
def pyFirstBak (s : String) : String :=
  match breakOnSep ".bak_".data s.data with
  | none => s
  | some (a, _) => ⟨a⟩

/-- The target-path derivation of `rollback_backup` (main.py line 225):
`"_".join(name.split(".bak_")[0].split("_"))`. Python's `split` on the
one-character separator `"_"` is `List.splitOn '_'` on the characters,
and `"_".join` is `List.intercalate ['_']`. -/
def rollbackTargetFile (name : String) : String :=
  ⟨List.intercalate ['_'] ((pyFirstBak name).data.splitOn '_')⟩

/-- The target-path derivation that the spec's wording attributes to
rollback: the portion of the backup name before the first `.bak_`
marker with every underscore treated as a path separator. Stated from
the spec for comparison with `rollbackTargetFile`; the code does not
perform the underscore-to-separator replacement. -/
def specRollbackTarget (name : String) : String :=
  undToSlash (pyFirstBak name)

/-- `os.path.basename`: the portion after the last `'/'`. -/
def basename (s : String) : String :=
  ⟨(s.data.reverse.takeWhile (fun c => c ≠ '/')).reverse⟩

/-- Python string `<` (lexicographic over code points), on characters. -/
def pyLt : List Char → List Char → Bool
  | [], [] => false
  | [], _ :: _ => true
  | _ :: _, [] => false
  | a :: as, b :: bs => if a = b then pyLt as bs else decide (a < b)

/-- Python string `<` on strings. -/
def strLt (a b : String) : Bool :=
  pyLt a.data b.data

/-- Insert into a lexicographically descending list, keeping it
descending (the insertion step of `sorted(·, reverse=True)`). -/
def insertDesc (x : String) : List String → List String
  | [] => [x]
  | y :: ys => if strLt y x then x :: y :: ys else y :: insertDesc x ys

/-- `sorted(names, reverse=True)`: sort into descending lexicographic
order. -/
def sortDesc (l : List String) : List String :=
  l.foldr insertDesc []

/-! ## Association-list stores -/

/-- First-match lookup in an association list (Python `d[k]` / `k in d`
for dicts, and file existence plus read for a directory of files). -/
def lookupKV {α : Type} : List (String × α) → String → Option α
  | [], _ => none
  | (k, v) :: rest, key => if k = key then some v else lookupKV rest key

/-- Update-or-append in an association list (Python `d[k] = v`, and
writing a file: an existing name is overwritten in place, a fresh name
is appended, so list order is creation order). -/
def setKV {α : Type} : List (String × α) → String → α → List (String × α)
  | [], key, val => [(key, val)]
  | (k, v) :: rest, key, val =>
    if k = key then (key, val) :: rest else (k, v) :: setKV rest key val

/-! ## Server state and the patch / backup / rollback engine -/

/-- The on-disk state the patch endpoints touch: the patch directory,
the backup directory, and the target filesystem keyed by the relative
target path (the code resolves every target against the same project
root, so the relative path identifies the file). -/
structure St where
  patches : List (String × String)
  backups : List (String × String)
  files : List (String × String)
deriving DecidableEq

/-- Response of `POST /api/patches/apply/{name}`. -/
structure ApplyResp where
  message : String
  backup : Option String
deriving DecidableEq

/-- The backup file name built by `apply_patch` (main.py line 202):
`os.path.basename(target_file) + ".bak_" + timestamp`. -/
def mkBackupName (target_file ts : String) : String :=
  basename target_file ++ ".bak_" ++ ts

/-- `apply_patch` (main.py lines 191-212). `ts` is the
`datetime.now().strftime("%Y%m%d_%H%M%S")` value at the moment of the
call. Errors carry the HTTP status code. -/
def apply_patch (st : St) (name ts : String) : Except Nat (St × ApplyResp) :=
  match lookupKV st.patches name with
  | none => .error 404
  | some content =>
    let target_file := undToSlash (pySplit2Last name)
    match lookupKV st.files target_file with
    | some old =>
      let backup_name := mkBackupName target_file ts
      let st1 : St := { st with backups := setKV st.backups backup_name old }
      let st2 : St := { st1 with files := setKV st1.files target_file content }
      .ok (st2, ⟨"✅ Patch " ++ name ++ " applied to " ++ target_file,
                 some ("backend/app/backups/" ++ backup_name)⟩)
    | none =>
      .ok ({ st with files := setKV st.files target_file content },
           ⟨"✅ Patch " ++ name ++ " applied to " ++ target_file, none⟩)

/-- `rollback_backup` (main.py lines 218-230). -/
def rollback_backup (st : St) (name : String) : Except Nat (St × String) :=
  match lookupKV st.backups name with
  | none => .error 404
  | some content =>
    let target_file := rollbackTargetFile name
    .ok ({ st with files := setKV st.files target_file content },
         "✅ Rolled back " ++ target_file ++ " from backup " ++ name)

/-- `list_patches` (main.py lines 180-182):
`sorted(os.listdir(PATCH_DIR), reverse=True)`. -/
def list_patches (st : St) : List String :=
  sortDesc (st.patches.map Prod.fst)

/-- `list_backups` (main.py lines 214-216):
`sorted(os.listdir(BACKUP_DIR), reverse=True)`. -/
def list_backups (st : St) : List String :=
  sortDesc (st.backups.map Prod.fst)

/-- The patch file name written by the agent endpoint (main.py line
166-167): `timestamp + "_" + parsed["file"].replace("/", "_")`. -/
def patchName (ts fname : String) : String :=
  ts ++ "_" ++ slashToUnd fname

/-! ## Users: signup and login -/

/-- A record in `users.json`. The `role` field is optional because the
code reads it with `users[...].get("role", "user")`. -/
structure UserRec where
  password : String
  role : Option String
deriving DecidableEq

/-- The content of `users.json`: email to record. -/
abbrev Users := List (String × UserRec)

/-- `signup` (main.py lines 82-89). The pydantic `User` model only
admits `email` and `password`, so those are the whole request. -/
def signup (users : Users) (email password : String) :
    Except Nat (Users × String) :=
  if (lookupKV users email).isSome then .error 400
  else .ok (setKV users email ⟨password, some "user"⟩, "Signup successful")

/-- `login` (main.py lines 91-96). On success returns the
`{email, role}` payload. -/
def login (users : Users) (email password : String) :
    Except Nat (String × String) :=
  match lookupKV users email with
  | none => .error 401
  | some rec =>
    if rec.password ≠ password then .error 401
    else .ok (email, rec.role.getD "user")

/-! ## Settings endpoints -/

/-- The content of `settings.json`, values modelled as strings (the
claims only need equality and Python truthiness, which for strings is
non-emptiness). -/
abbrev Settings := List (String × String)

/-- `load_settings` (main.py lines 49-53) at the store level: the input
is the state of `settings.json` (`none` when the file does not exist);
the output is the loaded record and the file state afterwards (an empty
record is persisted first when the file was absent). -/
def load_settings : Option Settings → Settings × Option Settings
  | none => ([], some [])
  | some s => (s, some s)

/-- `get_settings` (main.py lines 101-107) at the store level: load,
mask the API key in the in-memory copy, return it; `save_settings` is
never called, so the second component is the file state after the
request. -/
def get_settings (file : Option Settings) : Settings × Option Settings :=
  let (s, file') := load_settings file
  let masked :=
    if (lookupKV s "openai_api_key").isSome
    then setKV s "openai_api_key" "*****" else s
  (masked, file')

/-- One step of the `for k, v in data.items()` loop in
`update_settings` (main.py lines 121-123): every key other than
`openai_api_key` and `model` is merged unconditionally. -/
def mergeOther (acc : Settings) (kv : String × String) : Settings :=
  if kv.1 ≠ "openai_api_key" ∧ kv.1 ≠ "model" then setKV acc kv.1 kv.2
  else acc

/-- The API-key step of `update_settings` (main.py lines 114-115):
`if "openai_api_key" in data and data["openai_api_key"] not in ("", "*****")`. -/
def updateApiKeyField (settings : Settings) (data : List (String × String)) :
    Settings :=
  match lookupKV data "openai_api_key" with
  | some v =>
    if v ≠ "" ∧ v ≠ "*****" then setKV settings "openai_api_key" v
    else settings
  | none => settings

/-- The model step of `update_settings` (main.py lines 117-118):
`if "model" in data and data["model"]` (string truthiness =
non-emptiness). -/
def updateModelField (settings : Settings) (data : List (String × String)) :
    Settings :=
  match lookupKV data "model" with
  | some v => if v ≠ "" then setKV settings "model" v else settings
  | none => settings

/-- `update_settings` (main.py lines 109-126): merge the posted dict
into the loaded settings (the API key only when it is neither blank nor
the mask sentinel, the model only when truthy, every other key
unconditionally) and persist the result. Returns the new persisted
record and the response message. -/
def update_settings (settings : Settings) (data : List (String × String)) :
    Settings × String :=
  (data.foldl mergeOther (updateModelField (updateApiKeyField settings data) data),
   "Settings updated")

/-! ## Agent endpoint: reply processing -/

/-- JSON values, the possible results of `json.loads`. -/
inductive J where
  | jstr : String → J
  | jnum : Int → J
  | jbool : Bool → J
  | jnull : J
  | jarr : List J → J
  | jobj : List (String × J) → J

/-- Lookup in a JSON object's field list (first match, as for a dict). -/
def lookupJ : List (String × J) → String → Option J
  | [], _ => none
  | (k, v) :: rest, key => if k = key then some v else lookupJ rest key

/-- Update-or-append in a JSON object's field list. -/
def setJ : List (String × J) → String → J → List (String × J)
  | [], key, val => [(key, val)]
  | (k, v) :: rest, key, val =>
    if k = key then (key, val) :: rest else (k, v) :: setJ rest key val

/-- Python `pat in s` for strings: substring test. -/
def strContains (s pat : String) : Bool :=
  decide ((s.splitOn pat).length ≥ 2)

/-- Python `key in parsed` for an arbitrary `json.loads` result: key
membership for a dict, substring test for a string, element equality
for a list, a `TypeError` otherwise. -/
def jMem (key : String) : J → Except String Bool
  | J.jobj kvs => .ok (lookupJ kvs key).isSome
  | J.jstr s => .ok (strContains s key)
  | J.jarr xs =>
    .ok (xs.any (fun x => match x with | J.jstr s => s == key | _ => false))
  | _ => .error "TypeError"

/-- Python `parsed[key]` for a string key: field access on a dict
(`KeyError` when absent), a `TypeError` on anything else. -/
def jIndex : J → String → Except String J
  | J.jobj kvs, key =>
    match lookupJ kvs key with
    | some v => .ok v
    | none => .error "KeyError"
  | _, _ => .error "TypeError"

/-- Python attribute/argument checks that require a `str` value
(`.replace` on `parsed["file"]`, `f.write(parsed["code"])`). -/
def asStr : J → Except String String
  | J.jstr s => .ok s
  | _ => .error "TypeError"

/-- The reply-processing tail of `agent` (main.py lines 158-172): parse
the completion text as JSON, degrading to `{"message": reply}` on parse
failure; when the parsed value has both a `file` and a `code` field,
write the code to a fresh timestamped patch file and record its path
under `patch_saved`. `parse` stands for `json.loads` (`none` = parse
failure), `ts` for the current timestamp; any exception inside the
`try` block becomes a 500 error. -/
def agentProcessReply (parse : String → Option J) (reply ts : String)
    (st : St) : Except String (J × St) :=
  let parsed :=
    match parse reply with
    | some j => j
    | none => J.jobj [("message", J.jstr reply)]
  match jMem "file" parsed with
  | .error e => .error e
  | .ok false => .ok (parsed, st)
  | .ok true =>
    match jMem "code" parsed with
    | .error e => .error e
    | .ok false => .ok (parsed, st)
    | .ok true =>
      match jIndex parsed "file" with
      | .error e => .error e
      | .ok fileV =>
        match asStr fileV with
        | .error e => .error e
        | .ok file =>
          match jIndex parsed "code" with
          | .error e => .error e
          | .ok codeV =>
            match asStr codeV with
            | .error e => .error e
            | .ok code =>
              let filename := slashToUnd file
              let pname := ts ++ "_" ++ filename
              let patch_file := "backend/app/patches/" ++ pname
              match parsed with
              | J.jobj kvs =>
                .ok (J.jobj (setJ kvs "patch_saved" (J.jstr patch_file)),
                     { st with patches := setKV st.patches pname code })
              | _ => .error "unreachable"

/-! ## Lemmas about the association-list stores -/

theorem lookupKV_setKV_self {α : Type} (l : List (String × α)) (k : String)
    (v : α) : lookupKV (setKV l k v) k = some v := by
  induction l with
  | nil => simp [setKV, lookupKV]
  | cons hd tl ih =>
    obtain ⟨k0, v0⟩ := hd
    by_cases h : k0 = k
    · subst h; simp [setKV, lookupKV]
    · simp [setKV, lookupKV, h, ih]

theorem lookupKV_setKV_ne {α : Type} (l : List (String × α)) (k k' : String)
    (v : α) (h : k' ≠ k) :
    lookupKV (setKV l k v) k' = lookupKV l k' := by
  induction l with
  | nil => simp [setKV, lookupKV, Ne.symm h]
  | cons hd tl ih =>
    obtain ⟨k0, v0⟩ := hd
    by_cases hk : k0 = k
    · subst hk
      simp [setKV, lookupKV, Ne.symm h]
    · by_cases hk' : k0 = k'
      · subst hk'; simp [setKV, lookupKV, hk]
      · simp [setKV, lookupKV, hk, hk', ih]

theorem setKV_append_of_none {α : Type} (l : List (String × α))
    (k : String) (v : α) (h : lookupKV l k = none) :
    setKV l k v = l ++ [(k, v)] := by
  induction l with
  | nil => simp [setKV]
  | cons hd tl ih =>
    obtain ⟨k0, v0⟩ := hd
    by_cases hk : k0 = k
    · subst hk; simp [lookupKV] at h
    · simp [lookupKV, hk] at h
      simp [setKV, hk, ih h]

/-! ## Lemmas about the settings merge loop -/

theorem foldl_mergeOther_lookup_special (data : List (String × String))
    (acc : Settings) (key : String)
    (hkey : key = "openai_api_key" ∨ key = "model") :
    lookupKV (data.foldl mergeOther acc) key = lookupKV acc key := by
  induction data generalizing acc with
  | nil => rfl
  | cons hd tl ih =>
    simp only [List.foldl_cons]
    rw [ih]
    unfold mergeOther
    split
    · next h1 =>
      refine lookupKV_setKV_ne _ _ _ _ ?_
      rcases hkey with rfl | rfl
      · exact Ne.symm h1.1
      · exact Ne.symm h1.2
    · rfl

theorem foldl_mergeOther_lookup_notmem (data : List (String × String))
    (acc : Settings) (key : String) (h : key ∉ data.map Prod.fst) :
    lookupKV (data.foldl mergeOther acc) key = lookupKV acc key := by
  induction data generalizing acc with
  | nil => rfl
  | cons hd tl ih =>
    simp only [List.map_cons, List.mem_cons] at h
    push_neg at h
    simp only [List.foldl_cons]
    rw [ih _ h.2]
    unfold mergeOther
    split
    · exact lookupKV_setKV_ne _ _ _ _ h.1
    · rfl

theorem foldl_mergeOther_sets (data : List (String × String))
    (acc : Settings) (k v : String)
    (hnd : (data.map Prod.fst).Nodup) (hmem : (k, v) ∈ data)
    (hk1 : k ≠ "openai_api_key") (hk2 : k ≠ "model") :
    lookupKV (data.foldl mergeOther acc) k = some v := by
  induction data generalizing acc with
  | nil => cases hmem
  | cons hd tl ih =>
    simp only [List.map_cons, List.nodup_cons] at hnd
    obtain ⟨hk0, hndtl⟩ := hnd
    simp only [List.foldl_cons]
    rcases List.mem_cons.mp hmem with heq | htl
    · cases heq
      rw [foldl_mergeOther_lookup_notmem _ _ _ hk0]
      unfold mergeOther
      rw [if_pos ⟨hk1, hk2⟩]
      exact lookupKV_setKV_self _ _ _
    · exact ih _ hndtl htl

theorem updateApiKeyField_of_masked (settings : Settings)
    (data : List (String × String))
    (hmask : ∀ v, lookupKV data "openai_api_key" = some v →
      v = "" ∨ v = "*****") :
    updateApiKeyField settings data = settings := by
  unfold updateApiKeyField
  cases hA : lookupKV data "openai_api_key" with
  | none => rfl
  | some v =>
    rcases hmask v hA with rfl | rfl
    · simp
    · simp

theorem lookupKV_updateModelField_api (settings : Settings)
    (data : List (String × String)) :
    lookupKV (updateModelField settings data) "openai_api_key" =
      lookupKV settings "openai_api_key" := by
  unfold updateModelField
  cases lookupKV data "model" with
  | none => rfl
  | some v =>
    by_cases hv : v = ""
    · simp [hv]
    · simp only [hv, ne_eq, not_false_eq_true, if_true]
      exact lookupKV_setKV_ne _ _ _ _
        (show "openai_api_key" ≠ "model" by decide)

/-! ## Lemmas about the Python string order and descending sort -/

theorem pyLt_irrefl (as : List Char) : pyLt as as = false := by
  induction as with
  | nil => rfl
  | cons a tl ih => simp [pyLt, ih]

theorem pyLt_trans (as bs cs : List Char) (h1 : pyLt as bs = true)
    (h2 : pyLt bs cs = true) : pyLt as cs = true := by
  induction as generalizing bs cs with
  | nil =>
    cases bs with
    | nil => simp [pyLt] at h1
    | cons b bs' =>
      cases cs with
      | nil => simp [pyLt] at h2
      | cons c cs' => rfl
  | cons a as' ih =>
    cases bs with
    | nil => simp [pyLt] at h1
    | cons b bs' =>
      cases cs with
      | nil => simp [pyLt] at h2
      | cons c cs' =>
        simp only [pyLt] at h1 h2 ⊢
        by_cases hab : a = b
        · subst hab
          by_cases hbc : a = c
          · subst hbc
            rw [if_pos rfl] at h1 h2 ⊢
            exact ih _ _ h1 h2
          · rw [if_neg hbc] at h2 ⊢
            exact h2
        · by_cases hbc : b = c
          · subst hbc
            rw [if_neg hab] at h1 ⊢
            exact h1
          · rw [if_neg hab] at h1
            rw [if_neg hbc] at h2
            have hac : a < c :=
              lt_trans (of_decide_eq_true h1) (of_decide_eq_true h2)
            rw [if_neg (ne_of_lt hac)]
            exact decide_eq_true hac

theorem pyLt_asymm (as bs : List Char) (h : pyLt as bs = true) :
    pyLt bs as = false := by
  cases hb : pyLt bs as with
  | false => rfl
  | true =>
    have := pyLt_trans as bs as h hb
    rw [pyLt_irrefl] at this
    cases this

theorem pyLt_append (as bs u v : List Char) (h : pyLt as bs = true)
    (hlen : as.length = bs.length) : pyLt (as ++ u) (bs ++ v) = true := by
  induction as generalizing bs with
  | nil =>
    cases bs with
    | nil => simp [pyLt] at h
    | cons b bs' => simp at hlen
  | cons a as' ih =>
    cases bs with
    | nil => simp at hlen
    | cons b bs' =>
      simp only [List.cons_append, pyLt] at h ⊢
      by_cases hab : a = b
      · rw [if_pos hab] at h ⊢
        exact ih bs' h (by simpa using hlen)
      · rw [if_neg hab] at h ⊢
        exact h

theorem strLt_irrefl (a : String) : strLt a a = false :=
  pyLt_irrefl a.data

theorem strLt_trans {a b c : String} (h1 : strLt a b = true)
    (h2 : strLt b c = true) : strLt a c = true :=
  pyLt_trans a.data b.data c.data h1 h2

theorem strLt_asymm {a b : String} (h : strLt a b = true) :
    strLt b a = false :=
  pyLt_asymm a.data b.data h

theorem mem_insertDesc {z x : String} {l : List String}
    (h : z ∈ insertDesc x l) : z = x ∨ z ∈ l := by
  induction l with
  | nil => simpa [insertDesc] using h
  | cons y ys ih =>
    unfold insertDesc at h
    by_cases hc : strLt y x = true
    · rw [if_pos hc] at h
      rcases List.mem_cons.mp h with h1 | h2
      · exact Or.inl h1
      · exact Or.inr h2
    · rw [if_neg hc] at h
      rcases List.mem_cons.mp h with h1 | h2
      · exact Or.inr (h1 ▸ List.mem_cons_self y ys)
      · rcases ih h2 with h3 | h4
        · exact Or.inl h3
        · exact Or.inr (List.mem_cons_of_mem _ h4)

theorem insertDesc_perm (x : String) (l : List String) :
    (insertDesc x l).Perm (x :: l) := by
  induction l with
  | nil => exact List.Perm.refl _
  | cons y ys ih =>
    unfold insertDesc
    by_cases hc : strLt y x = true
    · rw [if_pos hc]
    · rw [if_neg hc]
      exact (ih.cons y).trans (List.Perm.swap x y ys)

theorem sortDesc_perm (l : List String) : (sortDesc l).Perm l := by
  induction l with
  | nil => exact List.Perm.refl _
  | cons x xs ih =>
    simp only [sortDesc, List.foldr_cons]
    exact (insertDesc_perm x _).trans (ih.cons x)

theorem insertDesc_pairwise (x : String) (l : List String)
    (hl : l.Pairwise (fun a b => strLt a b = false)) :
    (insertDesc x l).Pairwise (fun a b => strLt a b = false) := by
  induction l with
  | nil => simp [insertDesc]
  | cons y ys ih =>
    rcases List.pairwise_cons.mp hl with ⟨hy, hys⟩
    unfold insertDesc
    by_cases hc : strLt y x = true
    · rw [if_pos hc]
      refine List.pairwise_cons.mpr ⟨?_, hl⟩
      intro z hz
      rcases List.mem_cons.mp hz with rfl | hz'
      · exact strLt_asymm hc
      · cases hxz : strLt x z with
        | false => rfl
        | true =>
          have hyz := strLt_trans hc hxz
          rw [hy z hz'] at hyz
          cases hyz
    · rw [if_neg hc]
      refine List.pairwise_cons.mpr ⟨?_, ih hys⟩
      intro z hz
      rcases mem_insertDesc hz with rfl | hz'
      · cases hb : strLt y z with
        | false => rfl
        | true => exact absurd hb hc
      · exact hy z hz'

theorem sortDesc_pairwise (l : List String) :
    (sortDesc l).Pairwise (fun a b => strLt a b = false) := by
  induction l with
  | nil => exact List.Pairwise.nil
  | cons x xs ih =>
    simp only [sortDesc, List.foldr_cons]
    exact insertDesc_pairwise x _ ih

theorem insertDesc_of_forall_lt (x : String) (l : List String)
    (h : ∀ y ∈ l, strLt x y = true) : insertDesc x l = l ++ [x] := by
  induction l with
  | nil => rfl
  | cons y ys ih =>
    unfold insertDesc
    rw [if_neg (by rw [strLt_asymm (h y (List.mem_cons_self y ys))]; simp),
      ih (fun z hz => h z (List.mem_cons_of_mem _ hz)), List.cons_append]

theorem sortDesc_of_pairwise_lt (l : List String)
    (h : l.Pairwise (fun a b => strLt a b = true)) :
    sortDesc l = l.reverse := by
  induction l with
  | nil => rfl
  | cons x xs ih =>
    rcases List.pairwise_cons.mp h with ⟨hx, hxs⟩
    simp only [sortDesc, List.foldr_cons] at ih ⊢
    rw [ih hxs, insertDesc_of_forall_lt x _
      (fun y hy => hx y (List.mem_reverse.mp hy)), List.reverse_cons]

theorem strLt_patchName {ts1 ts2 f1 f2 : String}
    (h : strLt ts1 ts2 = true) (hlen : ts1.length = ts2.length) :
    strLt (patchName ts1 f1) (patchName ts2 f2) = true := by
  have hd : ∀ ts f : String, (patchName ts f).data =
      ts.data ++ ('_' :: (slashToUnd f).data) := by
    intro ts f
    show (ts ++ "_" ++ slashToUnd f).data = _
    rw [String.data_append, String.data_append, List.append_assoc]
    rfl
  show pyLt (patchName ts1 f1).data (patchName ts2 f2).data = true
  rw [hd, hd]
  exact pyLt_append _ _ _ _ h hlen

/-- Splitting on underscores and rejoining with underscores is the
identity, so the rollback derivation keeps the name's underscores. -/
theorem rollbackTargetFile_eq_firstBak (name : String) :
    rollbackTargetFile name = pyFirstBak name := by
  unfold rollbackTargetFile
  rw [List.intercalate_splitOn]

/-! ## Claim theorems -/

/-- C1 counterexample: for the backup name
`my_file.txt.bak_20240101_000000` the claim's derivation yields
`my/file.txt`, but rollback leaves that path untouched (it keeps its
prior content `old`) and instead writes the backup bytes to
`my_file.txt`: the code does not treat underscores as separators. -/
theorem C1_counterexample :
    specRollbackTarget "my_file.txt.bak_20240101_000000" = "my/file.txt" ∧
    rollback_backup ⟨[], [("my_file.txt.bak_20240101_000000", "X")],
        [("my/file.txt", "old")]⟩ "my_file.txt.bak_20240101_000000" =
      .ok (⟨[], [("my_file.txt.bak_20240101_000000", "X")],
          [("my/file.txt", "old"), ("my_file.txt", "X")]⟩,
        "✅ Rolled back my_file.txt from backup my_file.txt.bak_20240101_000000") ∧
    lookupKV [("my/file.txt", "old"), ("my_file.txt", "X")] "my/file.txt" =
      some "old" :=
  ⟨rfl, rfl, rfl⟩

/-- C2 counterexample: two successive applies create the backups
`z.bak_20240102_100000` and then `a.bak_20240102_100001`; the most
recently created backup is `a.bak_…`, but `list_backups` sorts the
names lexicographically descending, so the older `z.bak_…` comes
first — for backups the listing is not newest-first. -/
theorem C2_counterexample :
    ∃ st1 r1 st2 r2,
      apply_patch ⟨[("20240101_000000_z", "nz"), ("20240102_000000_a", "na")],
          [], [("z", "oz"), ("a", "oa")]⟩ "20240101_000000_z"
          "20240102_100000" = .ok (st1, r1) ∧
      apply_patch st1 "20240102_000000_a" "20240102_100001" = .ok (st2, r2) ∧
      (st2.backups.map Prod.fst).getLast? = some "a.bak_20240102_100001" ∧
      (list_backups st2).head? = some "z.bak_20240102_100000" ∧
      (list_backups st2).head? ≠ (st2.backups.map Prod.fst).getLast? := by
  refine ⟨⟨[("20240101_000000_z", "nz"), ("20240102_000000_a", "na")],
      [("z.bak_20240102_100000", "oz")], [("z", "nz"), ("a", "oa")]⟩,
    ⟨"✅ Patch 20240101_000000_z applied to z",
      some "backend/app/backups/z.bak_20240102_100000"⟩,
    ⟨[("20240101_000000_z", "nz"), ("20240102_000000_a", "na")],
      [("z.bak_20240102_100000", "oz"), ("a.bak_20240102_100001", "oa")],
      [("z", "nz"), ("a", "na")]⟩,
    ⟨"✅ Patch 20240102_000000_a applied to a",
      some "backend/app/backups/a.bak_20240102_100001"⟩,
    rfl, rfl, rfl, rfl, by decide⟩

/-- C2 (amended): `list_patches` does return the stored patch names
newest-first whenever the patches were created with strictly increasing
timestamps of the fixed `YYYYMMDD_HHMMSS` length (15); `list_backups`
returns the stored backup names sorted lexicographically descending — a
permutation of the names in descending string order — which orders by
the original basename and therefore need not put the most recently
created backup first. -/
theorem C2_list_order (st : St) (creations : List (String × String))
    (hnames : st.patches.map Prod.fst =
      creations.map (fun c => patchName c.1 c.2))
    (hlen : ∀ c ∈ creations, c.1.length = 15)
    (hinc : creations.Pairwise (fun a b => strLt a.1 b.1 = true)) :
    (list_patches st).head? = (st.patches.map Prod.fst).getLast? ∧
    (list_backups st).Perm (st.backups.map Prod.fst) ∧
    (list_backups st).Pairwise (fun a b => strLt a b = false) := by
  refine ⟨?_, sortDesc_perm _, sortDesc_pairwise _⟩
  unfold list_patches
  rw [hnames]
  have hpw : (creations.map (fun c => patchName c.1 c.2)).Pairwise
      (fun a b => strLt a b = true) := by
    rw [List.pairwise_map]
    refine hinc.imp_of_mem ?_
    intro a b ha hb hab
    exact strLt_patchName hab ((hlen a ha).trans (hlen b hb).symm)
  rw [sortDesc_of_pairwise_lt _ hpw, List.head?_reverse]

/-- Witness for C2 (amended) at two concrete patches and one backup. -/
theorem C2_list_order_witness :
    (list_patches ⟨[(patchName "20240101_120000" "a.py", "ca"),
        (patchName "20240102_120000" "b.py", "cb")],
        [("z.bak_20240103_000000", "x")], []⟩).head? =
      ((⟨[(patchName "20240101_120000" "a.py", "ca"),
        (patchName "20240102_120000" "b.py", "cb")],
        [("z.bak_20240103_000000", "x")], []⟩ : St).patches.map
          Prod.fst).getLast? ∧
    (list_backups ⟨[(patchName "20240101_120000" "a.py", "ca"),
        (patchName "20240102_120000" "b.py", "cb")],
        [("z.bak_20240103_000000", "x")], []⟩).Perm
      ["z.bak_20240103_000000"] ∧
    (list_backups ⟨[(patchName "20240101_120000" "a.py", "ca"),
        (patchName "20240102_120000" "b.py", "cb")],
        [("z.bak_20240103_000000", "x")], []⟩).Pairwise
      (fun a b => strLt a b = false) :=
  C2_list_order
    ⟨[(patchName "20240101_120000" "a.py", "ca"),
      (patchName "20240102_120000" "b.py", "cb")],
      [("z.bak_20240103_000000", "x")], []⟩
    [("20240101_120000", "a.py"), ("20240102_120000", "b.py")]
    rfl (by decide) (by decide)

/-- C1 (amended): `rollback_backup` derives the target path as the
portion of the backup name before the first `.bak_` marker with its
underscores left unchanged (the code splits on underscores and rejoins
with underscores, an identity), and overwrites that derived path with
the backup's content. -/
theorem C1_rollback_target_derivation (st : St) (name content : String)
    (h : lookupKV st.backups name = some content) :
    rollbackTargetFile name = pyFirstBak name ∧
    ∃ st' msg, rollback_backup st name = .ok (st', msg) ∧
      lookupKV st'.files (pyFirstBak name) = some content := by
  refine ⟨rollbackTargetFile_eq_firstBak name,
    ⟨st.patches, st.backups,
      setKV st.files (rollbackTargetFile name) content⟩,
    "✅ Rolled back " ++ rollbackTargetFile name ++ " from backup " ++ name,
    ?_, ?_⟩
  · simp [rollback_backup, h]
  · rw [rollbackTargetFile_eq_firstBak name] at *
    exact lookupKV_setKV_self _ _ _

/-- Witness for C1 (amended) at a concrete backup name containing an
underscore. -/
theorem C1_rollback_target_derivation_witness :
    rollbackTargetFile "my_file.txt.bak_20240101_000000" =
      pyFirstBak "my_file.txt.bak_20240101_000000" ∧
    ∃ st' msg,
      rollback_backup ⟨[], [("my_file.txt.bak_20240101_000000", "X")], []⟩
          "my_file.txt.bak_20240101_000000" = .ok (st', msg) ∧
      lookupKV st'.files (pyFirstBak "my_file.txt.bak_20240101_000000") =
        some "X" :=
  C1_rollback_target_derivation
    ⟨[], [("my_file.txt.bak_20240101_000000", "X")], []⟩
    "my_file.txt.bak_20240101_000000" "X" (by decide)

/-- C3: a successful `apply_patch` on a patch whose resolved target
already exists appends exactly one new backup entry (holding the old
target bytes, under a fresh timestamped name) and reports its path in
the response; when the target does not exist, no backup entry is
created and the response's `backup` field is `none`. -/
theorem C3_apply_backup_exactly_one (st : St) (name ts content : String)
    (hp : lookupKV st.patches name = some content) :
    (∀ old, lookupKV st.files (undToSlash (pySplit2Last name)) = some old →
      lookupKV st.backups
          (mkBackupName (undToSlash (pySplit2Last name)) ts) = none →
      ∃ st' m, apply_patch st name ts = .ok (st',
          ⟨m, some ("backend/app/backups/" ++
            mkBackupName (undToSlash (pySplit2Last name)) ts)⟩) ∧
        st'.backups = st.backups ++
          [(mkBackupName (undToSlash (pySplit2Last name)) ts, old)]) ∧
    (lookupKV st.files (undToSlash (pySplit2Last name)) = none →
      ∃ st' m, apply_patch st name ts = .ok (st', ⟨m, none⟩) ∧
        st'.backups = st.backups) := by
  constructor
  · intro old hold hfresh
    refine ⟨⟨st.patches,
        setKV st.backups (mkBackupName (undToSlash (pySplit2Last name)) ts) old,
        setKV st.files (undToSlash (pySplit2Last name)) content⟩,
      "✅ Patch " ++ name ++ " applied to " ++ undToSlash (pySplit2Last name),
      ?_, ?_⟩
    · simp [apply_patch, hp, hold]
    · exact setKV_append_of_none _ _ _ hfresh
  · intro hnone
    refine ⟨⟨st.patches, st.backups,
        setKV st.files (undToSlash (pySplit2Last name)) content⟩,
      "✅ Patch " ++ name ++ " applied to " ++ undToSlash (pySplit2Last name),
      ?_, rfl⟩
    simp [apply_patch, hp, hnone]

/-- C4: after a successful `apply_patch` the target file holds exactly
the patch content, and when the target existed beforehand the newly
created backup holds exactly the target's pre-overwrite bytes. -/
theorem C4_apply_writes_patch_and_backup (st : St) (name ts content : String)
    (hp : lookupKV st.patches name = some content) :
    ∀ st' resp, apply_patch st name ts = .ok (st', resp) →
      lookupKV st'.files (undToSlash (pySplit2Last name)) = some content ∧
      ∀ old, lookupKV st.files (undToSlash (pySplit2Last name)) = some old →
        lookupKV st'.backups
          (mkBackupName (undToSlash (pySplit2Last name)) ts) = some old := by
  intro st' resp h
  cases hold : lookupKV st.files (undToSlash (pySplit2Last name)) with
  | some old0 =>
    simp only [apply_patch, hp, hold, Except.ok.injEq, Prod.mk.injEq] at h
    obtain ⟨h1, -⟩ := h
    subst h1
    refine ⟨lookupKV_setKV_self _ _ _, ?_⟩
    intro old hold'
    cases hold'
    exact lookupKV_setKV_self _ _ _
  | none =>
    simp only [apply_patch, hp, hold, Except.ok.injEq, Prod.mk.injEq] at h
    obtain ⟨h1, -⟩ := h
    subst h1
    refine ⟨lookupKV_setKV_self _ _ _, ?_⟩
    intro old hold'
    exact Option.noConfusion hold'

/-- C5: a successful `rollback_backup` writes the backup's stored bytes
to the derived target path. -/
theorem C5_rollback_restores_backup_bytes (st : St) (name content : String)
    (h : lookupKV st.backups name = some content) :
    ∃ st' msg, rollback_backup st name = .ok (st', msg) ∧
      lookupKV st'.files (rollbackTargetFile name) = some content := by
  refine ⟨⟨st.patches, st.backups,
      setKV st.files (rollbackTargetFile name) content⟩,
    "✅ Rolled back " ++ rollbackTargetFile name ++ " from backup " ++ name,
    ?_, lookupKV_setKV_self _ _ _⟩
  simp [rollback_backup, h]

/-- C6: signing up a fresh email and then logging in with the same
credentials succeeds; the stored record has role `"user"` and the login
response returns exactly that stored role. -/
theorem C6_signup_then_login (users : Users) (email password : String)
    (hfresh : lookupKV users email = none) :
    ∃ users', signup users email password = .ok (users', "Signup successful") ∧
      lookupKV users' email = some ⟨password, some "user"⟩ ∧
      login users' email password = .ok (email, "user") := by
  refine ⟨setKV users email ⟨password, some "user"⟩, ?_, ?_, ?_⟩
  · simp [signup, hfresh]
  · exact lookupKV_setKV_self _ _ _
  · simp [login, lookupKV_setKV_self]

/-- C10: whatever the request and prior state, a successful signup
stores role `"user"` for the new email — never `"admin"`. -/
theorem C10_signup_role_always_user (users : Users) (email password : String) :
    ∀ users' msg, signup users email password = .ok (users', msg) →
      ∃ r, lookupKV users' email = some r ∧ r.role = some "user" ∧
        r.role ≠ some "admin" := by
  intro users' msg h
  unfold signup at h
  by_cases hf : (lookupKV users email).isSome
  · simp [hf] at h
  · simp only [hf, if_false, Bool.false_eq_true, Except.ok.injEq,
      Prod.mk.injEq] at h
    obtain ⟨h1, -⟩ := h
    subst h1
    exact ⟨⟨password, some "user"⟩, lookupKV_setKV_self _ _ _, rfl, by simp⟩

/-- C7: a settings update whose posted `openai_api_key` is blank or the
mask sentinel `"*****"` leaves the stored API key unchanged, while
every other posted key (other than the specially handled `model`) is
merged into the stored settings. -/
theorem C7_masked_api_key_unchanged (settings : Settings)
    (data : List (String × String))
    (hmask : ∀ v, lookupKV data "openai_api_key" = some v →
      v = "" ∨ v = "*****")
    (hnd : (data.map Prod.fst).Nodup) :
    lookupKV (update_settings settings data).1 "openai_api_key" =
      lookupKV settings "openai_api_key" ∧
    ∀ k v, (k, v) ∈ data → k ≠ "openai_api_key" → k ≠ "model" →
      lookupKV (update_settings settings data).1 k = some v := by
  constructor
  · unfold update_settings
    rw [foldl_mergeOther_lookup_special _ _ _ (Or.inl rfl),
      lookupKV_updateModelField_api,
      updateApiKeyField_of_masked settings data hmask]
  · intro k v hmem hk1 hk2
    exact foldl_mergeOther_sets _ _ _ _ hnd hmem hk1 hk2

/-- C9: `GET /settings` never writes: the persisted settings file after
the request is exactly what it was before, and the `"*****"` mask is
applied only to the returned copy. -/
theorem C9_get_settings_pure_read (s : Settings) :
    (get_settings (some s)).2 = some s ∧
    ∀ v, lookupKV s "openai_api_key" = some v →
      lookupKV (get_settings (some s)).1 "openai_api_key" = some "*****" := by
  constructor
  · rfl
  · intro v hv
    simp [get_settings, load_settings, hv, lookupKV_setKV_self]

/-- C8: when the completion reply fails to parse as JSON, the agent
endpoint does not error: it returns the wrapper object
`{"message": rawText}` and leaves the patch repository untouched. -/
theorem C8_parse_failure_wraps_message (parse : String → Option J)
    (reply ts : String) (st : St) (h : parse reply = none) :
    agentProcessReply parse reply ts st =
      .ok (J.jobj [("message", J.jstr reply)], st) := by
  simp only [agentProcessReply, h]
  rfl

/-! ## Witnesses: the claim theorems applied at concrete inputs -/

/-- Witness for C3: applying the concrete patch
`20240101_120000_config_json` over an existing target
`config/json` appends exactly one backup entry. -/
theorem C3_apply_backup_exactly_one_witness :
    ∃ st' m,
      apply_patch ⟨[("20240101_120000_config_json", "new")], [],
          [("config/json", "old")]⟩ "20240101_120000_config_json"
          "20240102_100000" =
        .ok (st', ⟨m, some ("backend/app/backups/" ++
          mkBackupName (undToSlash (pySplit2Last "20240101_120000_config_json"))
            "20240102_100000")⟩) ∧
      st'.backups = [] ++
        [(mkBackupName (undToSlash (pySplit2Last "20240101_120000_config_json"))
            "20240102_100000", "old")] :=
  (C3_apply_backup_exactly_one
    ⟨[("20240101_120000_config_json", "new")], [], [("config/json", "old")]⟩
    "20240101_120000_config_json" "20240102_100000" "new" (by decide)).1
    "old" (by decide) rfl

/-- Witness for C4 at the same concrete apply. -/
theorem C4_apply_writes_patch_and_backup_witness :
    lookupKV [("config/json", "new")]
      (undToSlash (pySplit2Last "20240101_120000_config_json")) = some "new" ∧
    lookupKV [("json.bak_20240102_100000", "old")]
      (mkBackupName (undToSlash (pySplit2Last "20240101_120000_config_json"))
        "20240102_100000") = some "old" :=
  ⟨(C4_apply_writes_patch_and_backup
      ⟨[("20240101_120000_config_json", "new")], [], [("config/json", "old")]⟩
      "20240101_120000_config_json" "20240102_100000" "new" (by decide)
      ⟨[("20240101_120000_config_json", "new")],
        [("json.bak_20240102_100000", "old")], [("config/json", "new")]⟩
      ⟨"✅ Patch 20240101_120000_config_json applied to config/json",
        some "backend/app/backups/json.bak_20240102_100000"⟩ rfl).1,
   (C4_apply_writes_patch_and_backup
      ⟨[("20240101_120000_config_json", "new")], [], [("config/json", "old")]⟩
      "20240101_120000_config_json" "20240102_100000" "new" (by decide)
      ⟨[("20240101_120000_config_json", "new")],
        [("json.bak_20240102_100000", "old")], [("config/json", "new")]⟩
      ⟨"✅ Patch 20240101_120000_config_json applied to config/json",
        some "backend/app/backups/json.bak_20240102_100000"⟩ rfl).2
     "old" (by decide)⟩

/-- Witness for C5 at a concrete backup. -/
theorem C5_rollback_restores_backup_bytes_witness :
    ∃ st' msg,
      rollback_backup ⟨[], [("config.json.bak_20240101_000000", "old")], []⟩
          "config.json.bak_20240101_000000" = .ok (st', msg) ∧
      lookupKV st'.files
        (rollbackTargetFile "config.json.bak_20240101_000000") = some "old" :=
  C5_rollback_restores_backup_bytes
    ⟨[], [("config.json.bak_20240101_000000", "old")], []⟩
    "config.json.bak_20240101_000000" "old" (by decide)

/-- Witness for C6 at a concrete signup/login pair. -/
theorem C6_signup_then_login_witness :
    ∃ users', signup [] "a@b.c" "pw" = .ok (users', "Signup successful") ∧
      lookupKV users' "a@b.c" = some ⟨"pw", some "user"⟩ ∧
      login users' "a@b.c" "pw" = .ok ("a@b.c", "user") :=
  C6_signup_then_login [] "a@b.c" "pw" rfl

/-- Witness for C7 at a concrete masked update. -/
theorem C7_masked_api_key_unchanged_witness :
    lookupKV (update_settings [("openai_api_key", "sk-123")]
        [("openai_api_key", "*****"), ("theme", "dark")]).1 "openai_api_key" =
      lookupKV [("openai_api_key", "sk-123")] "openai_api_key" ∧
    lookupKV (update_settings [("openai_api_key", "sk-123")]
        [("openai_api_key", "*****"), ("theme", "dark")]).1 "theme" =
      some "dark" := by
  have hmask : ∀ v,
      lookupKV [("openai_api_key", "*****"), ("theme", "dark")]
        "openai_api_key" = some v → v = "" ∨ v = "*****" := by
    intro v h
    have he : lookupKV [("openai_api_key", "*****"), ("theme", "dark")]
        "openai_api_key" = some "*****" := by decide
    rw [he] at h
    cases h
    exact Or.inr rfl
  exact ⟨(C7_masked_api_key_unchanged [("openai_api_key", "sk-123")]
      [("openai_api_key", "*****"), ("theme", "dark")] hmask (by decide)).1,
    (C7_masked_api_key_unchanged [("openai_api_key", "sk-123")]
      [("openai_api_key", "*****"), ("theme", "dark")] hmask (by decide)).2
      "theme" "dark" (by decide) (by decide) (by decide)⟩

/-- Witness for C8 at a concrete reply that is not JSON. -/
theorem C8_parse_failure_wraps_message_witness :
    agentProcessReply (fun _ => none) "plain text" "20240101_000000"
        ⟨[], [], []⟩ =
      .ok (J.jobj [("message", J.jstr "plain text")], ⟨[], [], []⟩) :=
  C8_parse_failure_wraps_message (fun _ => none) "plain text"
    "20240101_000000" ⟨[], [], []⟩ rfl

/-- Witness for C9 at a concrete stored API key. -/
theorem C9_get_settings_pure_read_witness :
    (get_settings (some [("openai_api_key", "sk-123")])).2 =
      some [("openai_api_key", "sk-123")] ∧
    lookupKV (get_settings (some [("openai_api_key", "sk-123")])).1
      "openai_api_key" = some "*****" :=
  ⟨(C9_get_settings_pure_read [("openai_api_key", "sk-123")]).1,
   (C9_get_settings_pure_read [("openai_api_key", "sk-123")]).2 "sk-123"
     (by decide)⟩

/-- Witness for C10 at a concrete signup. -/
theorem C10_signup_role_always_user_witness :
    ∃ r, lookupKV (setKV [] "a@b.c" (⟨"pw", some "user"⟩ : UserRec))
        "a@b.c" = some r ∧
      r.role = some "user" ∧ r.role ≠ some "admin" :=
  C10_signup_role_always_user [] "a@b.c" "pw"
    (setKV [] "a@b.c" (⟨"pw", some "user"⟩ : UserRec)) "Signup successful" rfl

end MediaBackend
